import Mathlib

/-!
Verification of the `picoclaw` shell-execution tool (`pkg/tools/shell.go`).

The development embeds the Go source shallowly:

* commands and paths are `List Char` (Go strings are byte strings; every
  pattern and path the guard inspects is ASCII, where bytes and characters
  coincide);
* each compiled regular expression from `NewExecTool`'s deny list is
  translated into an executable `List Char → Bool` matcher with RE2
  substring-search semantics (`\b` word boundaries, `\s` blank classes,
  greedy repetition is irrelevant for existence of a match);
* `guardCommand`, `Execute`, `SetAllowPatterns` and friends become pure
  functions; the ambient pieces of state the Go code consults (the process
  working directory used by `filepath.Abs`, `os.Getwd`, and the outcome of
  the spawned child process) are passed in as explicit arguments;
* `Execute` returns, besides the `ToolResult`, a `Bool` recording whether
  the child process was spawned (i.e. whether control reached `cmd.Run()`).
-/

namespace Picoclaw

/-! ## Character classes (Go `regexp` and `unicode` packages) -/

/-- ASCII word character, the class RE2 uses for `\b`: `[0-9A-Za-z_]`. -/
def goWordChar (c : Char) : Bool :=
  ('0' ≤ c && c ≤ '9') || ('a' ≤ c && c ≤ 'z') || ('A' ≤ c && c ≤ 'Z') || c = '_'

/-- RE2 `\s` class: `[\t\n\f\r ]`. -/
def reSpace (c : Char) : Bool :=
  c = '\t' || c = '\n' || c = Char.ofNat 12 || c = '\r' || c = ' '

/-- Go `unicode.IsSpace`: the Unicode `White_Space` property
(`\t \n \v \f \r ' '`, NEL, NBSP, OGHAM, the U+2000 range, LS, PS, NNBSP,
MMSP, IDSP).  Used by `strings.TrimSpace`. -/
def uSpace (c : Char) : Bool :=
  [9, 10, 11, 12, 13, 32, 133, 160, 5760, 8192, 8193, 8194, 8195, 8196, 8197,
    8198, 8199, 8200, 8201, 8202, 8232, 8233, 8239, 8287, 12288].contains c.toNat

/-- ASCII letter (the `[A-Za-z]` class of the path-extraction pattern). -/
def asciiLetter (c : Char) : Bool :=
  ('a' ≤ c && c ≤ 'z') || ('A' ≤ c && c ≤ 'Z')

/-- ASCII lowering, modelling `strings.ToLower` (every character the guard's
patterns can react to is ASCII). -/
def lowerChar (c : Char) : Char :=
  if 'A' ≤ c && c ≤ 'Z' then Char.ofNat (c.toNat + 32) else c

/-- Lowercase a command, modelling `strings.ToLower`. -/
def lowerL (l : List Char) : List Char := l.map lowerChar

/-- Model of `strings.TrimSpace`: drop `unicode.IsSpace` characters from both
ends. -/
def trimSpace (l : List Char) : List Char :=
  ((l.dropWhile uSpace).reverse.dropWhile uSpace).reverse

/-- Model of `strings.Contains l pat` (does `pat` occur as a contiguous
substring of `l`). -/
def containsL (l pat : List Char) : Bool := decide (pat <:+: l)

/-! ## Regular-expression matchers

Each deny rule of `NewExecTool` is an RE2 pattern used only through
`MatchString`, i.e. only the existence of a match anywhere in the subject
matters.  The combinators below build exactly that existence test: a matcher
`List Char → Bool` receives the suffix of the subject starting at the
current position. -/

/-- Match a literal (already lowercase) string case-insensitively, then
continue with `k` on the rest.  Models a literal regex fragment under
`(?i)`. -/
def litCI : List Char → (List Char → Bool) → List Char → Bool
  | [], k, l => k l
  | _ :: _, _, [] => false
  | p :: ps, k, c :: cs => lowerChar c == p && litCI ps k cs

/-- Match one character of class `cls`, then continue with `k`. -/
def classThen (cls : Char → Bool) (k : List Char → Bool) : List Char → Bool
  | [] => false
  | c :: cs => cls c && k cs

/-- Regex `\s+` followed by `k`: one or more blank characters, trying every
possible split (existence semantics of greedy repetition). -/
def wsPlus (k : List Char → Bool) : List Char → Bool
  | [] => false
  | c :: cs => reSpace c && (k cs || wsPlus k cs)

/-- Regex `\s*` followed by `k`. -/
def wsStar (k : List Char → Bool) : List Char → Bool
  | [] => k []
  | c :: cs => k (c :: cs) || (reSpace c && wsStar k cs)

/-- Regex `.*` followed by `k` (RE2 `.` matches anything but `'\n'`). -/
def dotStar (k : List Char → Bool) : List Char → Bool
  | [] => k []
  | c :: cs => k (c :: cs) || (!(c == '\n') && dotStar k cs)

/-- Regex `.*` followed by a continuation that needs to know whether the
character immediately before it is a word character (for an inner `\b`).
The `Bool` argument carries the wordness of the previous character. -/
def dotStarB (k : Bool → List Char → Bool) : Bool → List Char → Bool
  | prevW, [] => k prevW []
  | prevW, c :: cs => k prevW (c :: cs) || (!(c == '\n') && dotStarB k (goWordChar c) cs)

/-- Regex `\d+` followed by `k`. -/
def digitsPlus (k : List Char → Bool) : List Char → Bool
  | [] => false
  | c :: cs => c.isDigit && (k cs || digitsPlus k cs)

/-- A trailing `\b` after a word character: the next character, if any, is
not a word character. -/
def notWordNext : List Char → Bool
  | [] => true
  | c :: _ => !goWordChar c

/-- Search for a match of `anch` at some position preceded by a `\b` word
boundary.  The `Bool` argument is the wordness of the previous character
(`false` at the start of the subject).  All deny rules anchored by a leading
`\b` start with a word character, so the boundary condition is exactly
"previous character is not a word character". -/
def scanBoundary (anch : List Char → Bool) : Bool → List Char → Bool
  | _, [] => false
  | prevW, c :: cs => (!prevW && anch (c :: cs)) || scanBoundary anch (goWordChar c) cs

/-- Search for a match of `anch` at any position (no leading boundary). -/
def scanAny (anch : List Char → Bool) : List Char → Bool
  | [] => false
  | c :: cs => anch (c :: cs) || scanAny anch cs

/-- Always-true continuation: nothing of the pattern remains. -/
def done : List Char → Bool := fun _ => true

/-- One character of class `[rf]` (under `(?i)`). -/
def isRF (c : Char) : Bool := lowerChar c = 'r' || lowerChar c = 'f'

/-- The alternation `(-[rf]{1,2}|--recursive|--force)`: for existence of a
match, `-[rf]{1,2}` succeeds as soon as one `[rf]` character follows `-`. -/
def altRM : List Char → Bool
  | c :: cs =>
    c == '-' &&
      ((match cs with
        | c2 :: _ => isRF c2
        | [] => false) ||
        litCI "-recursive".toList done cs || litCI "-force".toList done cs)
  | [] => false

/-- Deny rule 1: `(?i)\brm\s+(-[rf]{1,2}|--recursive|--force)`. -/
def rmDeny (l : List Char) : Bool :=
  scanBoundary (litCI "rm".toList (wsPlus altRM)) false l

/-- Deny rule 2: `(?i)\bdel\s+/[fq]`. -/
def delDeny (l : List Char) : Bool :=
  scanBoundary
    (litCI "del".toList
      (wsPlus (classThen (· == '/') (classThen (fun c => lowerChar c = 'f' || lowerChar c = 'q') done))))
    false l

/-- Deny rule 3: `(?i)\brmdir\s+/s`. -/
def rmdirDeny (l : List Char) : Bool :=
  scanBoundary (litCI "rmdir".toList (wsPlus (litCI "/s".toList done))) false l

/-- Deny rule 4: `(?i)\b(format|mkfs|diskpart)\b\s` — the inner `\b` is
subsumed by the following `\s` (a blank is never a word character). -/
def formatDeny (l : List Char) : Bool :=
  scanBoundary
    (fun r =>
      litCI "format".toList (classThen reSpace done) r ||
      litCI "mkfs".toList (classThen reSpace done) r ||
      litCI "diskpart".toList (classThen reSpace done) r)
    false l

/-- Deny rule 5: `(?i)\bdd\s+if=`. -/
def ddDeny (l : List Char) : Bool :=
  scanBoundary (litCI "dd".toList (wsPlus (litCI "if=".toList done))) false l

/-- Deny rule 6: `(?i)>\s*/dev/(sd[a-z]|nvme\d+n\d+|vd[a-z])\b`. -/
def devDeny (l : List Char) : Bool :=
  scanAny
    (classThen (· == '>')
      (wsStar
        (litCI "/dev/".toList
          (fun r =>
            litCI "sd".toList (classThen asciiLetter notWordNext) r ||
            litCI "nvme".toList
              (digitsPlus (classThen (fun c => lowerChar c = 'n') (digitsPlus notWordNext))) r ||
            litCI "vd".toList (classThen asciiLetter notWordNext) r))))
    l

/-- Deny rule 7: `(?i)\b(shutdown|reboot|poweroff)\b`. -/
def powerDeny (l : List Char) : Bool :=
  scanBoundary
    (fun r =>
      litCI "shutdown".toList notWordNext r ||
      litCI "reboot".toList notWordNext r ||
      litCI "poweroff".toList notWordNext r)
    false l

/-- Deny rule 8 (fork bomb): `:\(\)\s*\{.*\};\s*:`. -/
def forkDeny (l : List Char) : Bool :=
  scanAny
    (classThen (· == ':')
      (classThen (· == '(')
        (classThen (· == ')')
          (wsStar
            (classThen (· == Char.ofNat 123)
              (dotStar
                (classThen (· == Char.ofNat 125)
                  (classThen (· == ';') (wsStar (classThen (· == ':') done))))))))))
    l

/-- After `curl`/`wget` in deny rule 9: the trailing `\b`, then `.*\|\s*`
and one of the shell names (no boundary after the shell name). -/
def pipeTail (r : List Char) : Bool :=
  notWordNext r &&
    dotStar
      (classThen (· == '|')
        (wsStar
          (fun s =>
            litCI "sh".toList done s || litCI "bash".toList done s ||
            litCI "zsh".toList done s || litCI "dash".toList done s ||
            litCI "ksh".toList done s || litCI "csh".toList done s ||
            litCI "tcsh".toList done s || litCI "fish".toList done s)))
      r

/-- Deny rule 9: `(?i)\b(curl|wget)\b.*\|\s*(sh|bash|zsh|dash|ksh|csh|tcsh|fish)`. -/
def pipeDeny (l : List Char) : Bool :=
  scanBoundary
    (fun r =>
      litCI "curl".toList pipeTail r || litCI "wget".toList pipeTail r)
    false l

/-- Deny rule 10: `(?i)\beval\s+`. -/
def evalDeny (l : List Char) : Bool :=
  scanBoundary (litCI "eval".toList (wsPlus done)) false l

/-- Deny rule 11: `(?i)\bxargs\s+.*\brm\b` — after `\s+` the previous
character is a blank, so the inner `\b` scan starts in non-word state. -/
def xargsDeny (l : List Char) : Bool :=
  scanBoundary
    (litCI "xargs".toList
      (wsPlus
        (dotStarB (fun prevW r => !prevW && litCI "rm".toList notWordNext r) false)))
    false l

/-- The deny-pattern list built by `NewExecTool`, in source order. -/
def denyMatchers : List (List Char → Bool) :=
  [rmDeny, delDeny, rmdirDeny, formatDeny, ddDeny, devDeny, powerDeny,
    forkDeny, pipeDeny, evalDeny, xargsDeny]

/-! ## Path resolution (Go `path/filepath` on a POSIX host)

`guardCommand` calls `filepath.Abs` and `filepath.Rel`.  On the POSIX branch
(`runtime.GOOS != "windows"`, the branch the repository actually executes
commands under) `Abs(p)` is `Clean(p)` for rooted `p` and
`Clean(Join(wd, p))` otherwise, where `wd` is the working directory of the
hosting process — passed in below as `procCwd`. -/

/-- Character class `[^\\"']` of the drive-letter alternative of
`pathPattern`. -/
def pathClassDrive (c : Char) : Bool := !(c == '\\' || c == '"' || c == '\'')

/-- Character class `[^\s"']` of the rooted-path alternative of
`pathPattern`. -/
def pathClassSlash (c : Char) : Bool := !(reSpace c || c == '"' || c == '\'')

/-- Fuelled scanner behind `findPaths`; the fuel only serves structural
recursion and `findPaths` always supplies enough of it (one unit per
character). -/
def findPathsF : Nat → List Char → List (List Char)
  | 0, _ => []
  | _ + 1, [] => []
  | fuel + 1, c :: rest =>
    if asciiLetter c then
      match rest with
      | ':' :: '\\' :: r2 =>
        let run := r2.takeWhile pathClassDrive
        if run.isEmpty then findPathsF fuel rest
        else (c :: ':' :: '\\' :: run) :: findPathsF fuel (r2.drop run.length)
      | _ => findPathsF fuel rest
    else if c == '/' then
      let run := rest.takeWhile pathClassSlash
      if run.isEmpty then findPathsF fuel rest
      else ('/' :: run) :: findPathsF fuel (rest.drop run.length)
    else findPathsF fuel rest

/-- Model of `pathPattern.FindAllString(cmd, -1)` for
`pathPattern = [A-Za-z]:\\[^\\"']+|/[^\s"']+`: scan left to right, take the
greedy match at the first position where one of the two alternatives (whose
first characters are disjoint) matches, and resume after it.  Every step
consumes at least one character, so `l.length` units of fuel always run the
scan to completion. -/
def findPaths (l : List Char) : List (List Char) :=
  findPathsF l.length l

/-- Split a path into its `/`-separated segments. -/
def splitSegs (l : List Char) : List (List Char) := l.splitOn '/'

/-- The segment processing of `filepath.Clean` for rooted paths: empty and
`.` segments vanish, `..` pops the previous segment (or is dropped at the
root). -/
def cleanSegs (segs : List (List Char)) : List (List Char) :=
  segs.foldl
    (fun acc s =>
      if s = [] || s = ['.'] then acc
      else if s = ['.', '.'] then acc.dropLast
      else acc ++ [s])
    []

/-- Join segments with `/`. -/
def joinSegs (segs : List (List Char)) : List Char :=
  (segs.intersperse ['/']).flatten

/-- Model of `filepath.Clean` for rooted (absolute POSIX) paths. -/
def cleanAbs (l : List Char) : List Char :=
  '/' :: joinSegs (cleanSegs (splitSegs l))

/-- Model of `filepath.Abs` on a POSIX host: a rooted path is cleaned, any
other path is joined onto the working directory `procCwd` of the hosting
process first.  `filepath.Abs` only fails when `os.Getwd` does; that failure
mode is not modelled (the guard skips the token in that case). -/
def goAbs (procCwd l : List Char) : List Char :=
  if l.head? = some '/' then cleanAbs l else cleanAbs (procCwd ++ '/' :: l)

/-- Length of the longest common segment-wise prefix of two paths. -/
def commonPfxLen : List (List Char) → List (List Char) → Nat
  | a :: as, b :: bs => if a = b then commonPfxLen as bs + 1 else 0
  | _, _ => 0

/-- Model of `filepath.Rel(base, targ)` for cleaned absolute POSIX paths
(the only inputs `guardCommand` feeds it, on which it cannot fail): strip
the common segment prefix, replace each remaining base segment by `..`, and
append the remaining target segments; two equal paths give `.`. -/
def relString (base targ : List Char) : List Char :=
  let bsegs := cleanSegs (splitSegs base)
  let tsegs := cleanSegs (splitSegs targ)
  let n := commonPfxLen bsegs tsegs
  let brest := bsegs.drop n
  let trest := tsegs.drop n
  if brest.isEmpty && trest.isEmpty then ['.']
  else joinSegs (brest.map (fun _ => ['.', '.']) ++ trest)

/-- Model of `strings.HasPrefix l pat`. -/
def hasPfx (pat l : List Char) : Bool := pat.isPrefixOf l

/-! ## The guard

`guardCommand` is decomposed into one named test per stage of the source
function, in source order. -/

/-- The `ExecTool` structure of `shell.go`.  Compiled regular expressions
are represented by their `MatchString` functions; the timeout is kept in
seconds (the only granularity the source uses). -/
structure ExecTool where
  workingDir : String
  timeoutSecs : Nat
  denyPatterns : List (List Char → Bool)
  allowPatterns : List (List Char → Bool)
  restrictToWorkspace : Bool

/-- `NewExecTool`: the fixed deny list, a 60-second timeout, no allow
patterns. -/
def newExecTool (workingDir : String) (restrict : Bool) : ExecTool :=
  { workingDir := workingDir
    timeoutSecs := 60
    denyPatterns := denyMatchers
    allowPatterns := []
    restrictToWorkspace := restrict }

/-- Stage 1 of `guardCommand`: some deny pattern matches the lowercased
command. -/
def denyHit (t : ExecTool) (lower : List Char) : Bool :=
  t.denyPatterns.any (fun p => p lower)

/-- Stage 2 of `guardCommand`: an allow list is configured and no allow
pattern matches the lowercased command. -/
def allowMiss (t : ExecTool) (lower : List Char) : Bool :=
  !t.allowPatterns.isEmpty && !t.allowPatterns.any (fun p => p lower)

/-- Stage 3 (restrict only): a literal traversal sequence occurs in the
trimmed command. -/
def travHit (cmd : List Char) : Bool :=
  containsL cmd "..\\".toList || containsL cmd "../".toList

/-- Stage 4 (restrict only): a URL-percent-encoded traversal sequence occurs
in the trimmed command. -/
def encHit (cmd : List Char) : Bool :=
  containsL cmd "%2e%2e%2f".toList || containsL cmd "%2e%2e/".toList ||
    containsL cmd "..%2f".toList || containsL cmd "%2e%2e%5c".toList

/-- Stage 5 (restrict only): a null byte (raw or percent-encoded) occurs in
the trimmed command. -/
def nulHit (cmd : List Char) : Bool :=
  containsL cmd [Char.ofNat 0] || containsL cmd "%00".toList

/-- Stage 6 (restrict only): some extracted absolute-path token, resolved
with `filepath.Abs`, has a `filepath.Rel`-path from the resolved working
directory that starts with `..`. -/
def outsideHit (cmd cwd procCwd : List Char) : Bool :=
  (findPaths cmd).any
    (fun raw => hasPfx "..".toList (relString (goAbs procCwd cwd) (goAbs procCwd raw)))

/-- Block messages returned by `guardCommand` (empty string = allowed). -/
def blockedDangerous : String := "Command blocked by safety guard (dangerous pattern detected)"

/-- Block message of the allowlist stage. -/
def blockedAllowlist : String := "Command blocked by safety guard (not in allowlist)"

/-- Block message of the literal-traversal stage. -/
def blockedTraversal : String := "Command blocked by safety guard (path traversal detected)"

/-- Block message of the URL-encoded-traversal stage. -/
def blockedEncoded : String := "Command blocked by safety guard (URL-encoded path traversal detected)"

/-- Block message of the null-byte stage. -/
def blockedNullByte : String := "Command blocked by safety guard (null byte injection detected)"

/-- Block message of the path-outside-workspace stage. -/
def blockedOutside : String := "Command blocked by safety guard (path outside working dir)"

/-- Model of `(*ExecTool).guardCommand`: trims and lowercases the command,
then runs the six stages in source order.  `procCwd` is the working
directory of the hosting process (consulted by `filepath.Abs`).  An empty
result means the command is allowed. -/
def guardCommandL (t : ExecTool) (command cwd procCwd : List Char) : String :=
  let cmd := trimSpace command
  let lower := lowerL cmd
  if denyHit t lower then blockedDangerous
  else if allowMiss t lower then blockedAllowlist
  else if t.restrictToWorkspace then
    if travHit cmd then blockedTraversal
    else if encHit cmd then blockedEncoded
    else if nulHit cmd then blockedNullByte
    else if outsideHit cmd cwd procCwd then blockedOutside
    else ""
  else ""

/-- `guardCommand` on `String` arguments. -/
def ExecTool.guardCommand (t : ExecTool) (command cwd procCwd : String) : String :=
  guardCommandL t command.toList cwd.toList procCwd.toList

/-! ## Execute -/

/-- The result record returned by every tool.

Modelled from the spec: `ToolResult` is declared in a repository file that is
not under `src/`; §6 of the spec describes it as a record with `ForLLM`
(machine-facing text), `ForUser` (user-facing text) and `IsError`. -/
structure ToolResult where
  forLLM : String
  forUser : String
  isError : Bool
deriving Repr, DecidableEq

/-- Modelled from the spec: `ErrorResult` is declared in a repository file
that is not under `src/`.  Per §6/§7 every error kind is surfaced as a
result value; `ErrorResult msg` is the result whose two texts are `msg` and
whose `IsError` flag is set, exactly how `shell.go` reports invalid
invocations and guard blocks. -/
def ErrorResult (msg : String) : ToolResult :=
  { forLLM := msg, forUser := msg, isError := true }

/-- What the spawned child process did, as observed by `Execute` after
`cmd.Run()`: the two captured streams, the error value of `Run` rendered by
`%v` (`none` for a zero exit), and whether the command context's deadline
had been exceeded. -/
structure RunOutcome where
  stdout : String
  stderr : String
  runErr : Option String
  deadlineExceeded : Bool

/-- The working-directory resolution at the top of `Execute`: explicit
`working_dir` argument (when a non-empty string) overrides the configured
default; an empty result falls back to `os.Getwd` (`osWd`, `none` when
`Getwd` fails, in which case the empty string is kept). -/
def resolveCwd (t : ExecTool) (wdArg osWd : Option String) : String :=
  let cwd0 :=
    match wdArg with
    | some wd => if wd = "" then t.workingDir else wd
    | none => t.workingDir
  if cwd0 = "" then osWd.getD cwd0 else cwd0

/-- Combined output text: stdout, then — when stderr is non-empty — a
delimited `STDERR:` section. -/
def combinedOutput (stdout stderr : String) : String :=
  if stderr.length > 0 then stdout ++ "\nSTDERR:\n" ++ stderr else stdout

/-- The 10000-character output budget with its truncation marker.  Go counts
bytes; characters coincide for ASCII output. -/
def truncateOutput (s : String) : String :=
  if s.length > 10000 then
    (s.take 10000) ++ "\n... (truncated, " ++ toString (s.length - 10000) ++ " more chars)"
  else s

/-- Rendering of a whole-second `time.Duration` by `fmt.Sprintf("%v", ·)`,
as used in the timeout message (`60s` prints as `1m0s`). -/
def fmtGoDuration (secs : Nat) : String :=
  if secs = 0 then "0s"
  else
    (if secs / 3600 > 0 then toString (secs / 3600) ++ "h" else "") ++
      (if secs / 3600 > 0 || secs % 3600 / 60 > 0 then toString (secs % 3600 / 60) ++ "m" else "") ++
      toString (secs % 60) ++ "s"

/-- Model of `(*ExecTool).Execute`.  `commandArg`/`wdArg` are the string
values of `args["command"]`/`args["working_dir"]` (`none` when absent or not
a string), `osWd` is `os.Getwd`, `procCwd` the hosting process's working
directory as consulted by `filepath.Abs`, and `run` the behaviour of the
child process should one be spawned.  The second component of the result
records whether a child process was spawned (whether control reached
`cmd.Run()`); the guard itself touches no state. -/
def ExecTool.execute (t : ExecTool) (commandArg wdArg osWd : Option String)
    (procCwd : String) (run : RunOutcome) : ToolResult × Bool :=
  match commandArg with
  | none => (ErrorResult "command is required", false)
  | some command =>
    let cwd := resolveCwd t wdArg osWd
    let guardError := t.guardCommand command cwd procCwd
    if guardError ≠ "" then (ErrorResult guardError, false)
    else
      let output0 := combinedOutput run.stdout run.stderr
      match run.runErr with
      | some e =>
        if run.deadlineExceeded then
          let msg := "Command timed out after " ++ fmtGoDuration t.timeoutSecs
          ({ forLLM := msg, forUser := msg, isError := true }, true)
        else
          let output1 := output0 ++ "\nExit code: " ++ e
          let output2 := if output1 = "" then "(no output)" else output1
          ({ forLLM := truncateOutput output2, forUser := truncateOutput output2,
             isError := true }, true)
      | none =>
        let output2 := if output0 = "" then "(no output)" else output0
        ({ forLLM := truncateOutput output2, forUser := truncateOutput output2,
           isError := false }, true)

/-- `SetTimeout` (whole seconds). -/
def ExecTool.setTimeout (t : ExecTool) (secs : Nat) : ExecTool :=
  { t with timeoutSecs := secs }

/-- `SetRestrictToWorkspace`. -/
def ExecTool.setRestrictToWorkspace (t : ExecTool) (restrict : Bool) : ExecTool :=
  { t with restrictToWorkspace := restrict }

/-- The compilation loop of `SetAllowPatterns`, started after
`t.allowPatterns` has already been replaced by an empty slice: compiled
patterns are appended one by one, and the first compilation failure returns
immediately with the error flag set, leaving whatever prefix was appended so
far. -/
def compileLoop (compile : String → Option (List Char → Bool))
    (acc : List (List Char → Bool)) : List String → List (List Char → Bool) × Bool
  | [] => (acc, false)
  | p :: ps =>
    match compile p with
    | none => (acc, true)
    | some re => compileLoop compile (acc ++ [re]) ps

/-- Model of `SetAllowPatterns`.  `compile` stands for `regexp.Compile`,
returning `none` exactly on the pattern strings Go rejects as invalid; the
`Bool` of the result is the error flag.  Faithful to the source, the
previous `allowPatterns` value is overwritten before compilation starts. -/
def ExecTool.setAllowPatterns (t : ExecTool) (compile : String → Option (List Char → Bool))
    (patterns : List String) : ExecTool × Bool :=
  let (pats, isErr) := compileLoop compile [] patterns
  ({ t with allowPatterns := pats }, isErr)

/-- The successfully compiled prefix of a pattern list: every pattern
strictly before the first one `compile` rejects. -/
def compiledPfx (compile : String → Option (List Char → Bool))
    (patterns : List String) : List (List Char → Bool) :=
  (patterns.takeWhile (fun p => (compile p).isSome)).filterMap compile

/-! ## Helper lemmas -/

/-- A deny match short-circuits `guardCommand` to the dangerous-pattern
message, whatever the rest of the configuration. -/
theorem guardCommandL_of_denyHit {t : ExecTool} {command cwd procCwd : List Char}
    (h : denyHit t (lowerL (trimSpace command)) = true) :
    guardCommandL t command cwd procCwd = blockedDangerous := by
  simp [guardCommandL, h]

/-- `containsL` agrees with list-infix containment. -/
theorem containsL_iff {l pat : List Char} : containsL l pat = true ↔ pat <:+: l := by
  simp [containsL]

/-- An occurrence of a pattern made of non-blank characters survives
`dropWhile uSpace`. -/
theorem infix_dropWhile_of_no_space {pat l : List Char}
    (hch : ∀ c ∈ pat, uSpace c = false) (hocc : pat <:+: l) :
    pat <:+: l.dropWhile uSpace := by
  induction l with
  | nil => simpa using hocc
  | cons c cs ih =>
    by_cases hc : uSpace c
    · rw [List.dropWhile_cons_of_pos hc]
      apply ih
      rcases hocc with ⟨s, t, hst⟩
      cases s with
      | nil =>
        cases pat with
        | nil => exact ⟨[], cs, rfl⟩
        | cons p ps =>
          simp only [List.nil_append, List.cons_append, List.cons.injEq] at hst
          have : uSpace p = false := hch p (List.mem_cons_self p ps)
          rw [hst.1] at this
          simp [hc] at this
      | cons x xs =>
        simp only [List.cons_append, List.cons.injEq] at hst
        exact ⟨xs, t, hst.2⟩
    · rw [List.dropWhile_cons_of_neg hc]
      exact hocc

/-- Infix containment is preserved by reversing both lists. -/
theorem rev_infix_of_infix {pat l : List Char} (h : pat <:+: l) :
    pat.reverse <:+: l.reverse := by
  rcases h with ⟨s, t, hst⟩
  exact ⟨t.reverse, s.reverse, by rw [← hst]; simp⟩

/-- An occurrence of a non-empty pattern made of non-blank characters
survives `strings.TrimSpace`. -/
theorem infix_trimSpace_of_no_space {pat l : List Char}
    (hch : ∀ c ∈ pat, uSpace c = false) (hocc : pat <:+: l) :
    pat <:+: trimSpace l := by
  unfold trimSpace
  have h1 : pat <:+: l.dropWhile uSpace := infix_dropWhile_of_no_space hch hocc
  have h2 : pat.reverse <:+: (l.dropWhile uSpace).reverse := rev_infix_of_infix h1
  have hch' : ∀ c ∈ pat.reverse, uSpace c = false := by
    intro c hc
    exact hch c (List.mem_reverse.mp hc)
  have h3 : pat.reverse <:+: ((l.dropWhile uSpace).reverse).dropWhile uSpace :=
    infix_dropWhile_of_no_space hch' h2
  have h4 := rev_infix_of_infix h3
  simpa using h4

/-- Finding an anchored match: if the subject splits as `a ++ r`, the
character before the split point is not a word character, and the anchored
pattern matches at the head of the non-empty remainder `r`, then the
boundary scan succeeds. -/
theorem scanBoundary_append (anch : List Char → Bool) :
    ∀ (a : List Char) (prevW : Bool) (r : List Char),
      (match a.getLast? with | some c => goWordChar c | none => prevW) = false →
      r ≠ [] → anch r = true →
      scanBoundary anch prevW (a ++ r) = true := by
  intro a
  induction a with
  | nil =>
    intro prevW r hb hr ha
    match r, hr with
    | c :: cs, _ =>
      simp only [List.getLast?_nil] at hb
      simp [scanBoundary, hb, ha]
  | cons x a' ih =>
    intro prevW r hb hr ha
    have hb' : (match a'.getLast? with | some c => goWordChar c | none => goWordChar x) = false := by
      cases a' with
      | nil => simpa using hb
      | cons y ys => simpa [List.getLast?_cons_cons] using hb
    have := ih (goWordChar x) r hb' hr ha
    simp [scanBoundary, this]

/-! ## C1: a blocked guard verdict aborts `Execute` before any spawn -/

/-- C1.  If the guard verdict on the resolved working directory is a block
(non-empty message), `Execute` returns exactly that message as an error
result, spawns no child process (second component `false`), and the outcome
does not depend on any process behaviour `run` — guard evaluation is a pure
function with no observable side effect on the blocked path. -/
theorem execute_blocked_is_error_and_no_spawn (t : ExecTool) (command : String)
    (wdArg osWd : Option String) (procCwd : String) (run : RunOutcome)
    (h : t.guardCommand command (resolveCwd t wdArg osWd) procCwd ≠ "") :
    t.execute (some command) wdArg osWd procCwd run
        = (ErrorResult (t.guardCommand command (resolveCwd t wdArg osWd) procCwd), false) ∧
      (t.execute (some command) wdArg osWd procCwd run).1.isError = true ∧
      (t.execute (some command) wdArg osWd procCwd run).2 = false := by
  have hmain : t.execute (some command) wdArg osWd procCwd run
      = (ErrorResult (t.guardCommand command (resolveCwd t wdArg osWd) procCwd), false) := by
    simp [ExecTool.execute, h]
  exact ⟨hmain, by rw [hmain]; rfl, by rw [hmain]⟩

/-- Witness for C1 at a concrete blocked invocation (`ls ../x` under
workspace restriction). -/
theorem execute_blocked_is_error_and_no_spawn_witness :
    (newExecTool "/ws" true).guardCommand "ls ../x"
        (resolveCwd (newExecTool "/ws" true) none none) "/" ≠ "" ∧
      ((newExecTool "/ws" true).execute (some "ls ../x") none none "/"
          ⟨"out", "err", none, false⟩).2 = false := by
  have h : (newExecTool "/ws" true).guardCommand "ls ../x"
      (resolveCwd (newExecTool "/ws" true) none none) "/" ≠ "" := by decide
  exact ⟨h,
    (execute_blocked_is_error_and_no_spawn (newExecTool "/ws" true) "ls ../x" none none "/"
      ⟨"out", "err", none, false⟩ h).2.2⟩

/-! ## C2: deny rules take precedence over allow rules -/

/-- C2.  For every configuration (in particular any allow list) and every
command, a deny-pattern match on the trimmed, lowercased command makes
`guardCommand` return the dangerous-pattern block message — deny rules are
evaluated first and unconditionally. -/
theorem deny_takes_precedence (t : ExecTool) (command cwd procCwd : String)
    (h : ∃ p ∈ t.denyPatterns, p (lowerL (trimSpace command.toList)) = true) :
    t.guardCommand command cwd procCwd = blockedDangerous := by
  apply guardCommandL_of_denyHit
  exact List.any_eq_true.mpr h

/-- Witness for C2: `rm -rf /tmp` is blocked as dangerous even though the
configured allow list matches it. -/
theorem deny_takes_precedence_witness :
    (∃ p ∈ ({ newExecTool "/ws" true with
        allowPatterns := [fun _ => true] } : ExecTool).denyPatterns,
        p (lowerL (trimSpace "rm -rf /tmp".toList)) = true) ∧
      ({ newExecTool "/ws" true with
        allowPatterns := [fun _ => true] } : ExecTool).guardCommand "rm -rf /tmp" "/ws" "/"
        = blockedDangerous := by
  have h : ∃ p ∈ ({ newExecTool "/ws" true with
      allowPatterns := [fun _ => true] } : ExecTool).denyPatterns,
      p (lowerL (trimSpace "rm -rf /tmp".toList)) = true :=
    ⟨rmDeny, List.mem_cons_self _ _, by decide⟩
  exact ⟨h, deny_takes_precedence _ "rm -rf /tmp" "/ws" "/" h⟩

/-! ## C3: `rm -rf` variants and the word boundary

The deny rule is `(?i)\brm\s+(-[rf]{1,2}|--recursive|--force)`: it demands a
word boundary before `rm`, so a command containing the substring `rm -rf`
inside a longer word (e.g. `confirm -rf logs`) is not blocked.  The claim
"regardless of surrounding text" is therefore refuted; what holds is the
version restricted to occurrences preceded by a non-word character or the
start of the command. -/

/-- Counterexample to C3 as stated: `confirm -rf logs` contains the
substring `rm -rf`, yet the default guard allows it (the `rm` sits inside
the word `confirm`, so the `\b` in the deny rule fails). -/
theorem rm_substring_without_boundary_allowed :
    containsL "confirm -rf logs".toList "rm -rf".toList = true ∧
      (newExecTool "/ws" false).guardCommand "confirm -rf logs" "/ws" "/" = "" := by
  constructor <;> decide

/-- C3 (amended).  Whenever the trimmed, lowercased command contains
`rm -rf`, `rm -r -f` or `rm --recursive --force` (any casing collapses into
these under lowering) at a position preceded by the start of the text or by
a non-word character, the default guard blocks the command as dangerous,
regardless of the remaining surrounding text. -/
theorem rm_variants_blocked_at_boundary (wd : String) (restrict : Bool)
    (command cwd procCwd : String) (a b p : List Char)
    (hp : p = "rm -rf".toList ∨ p = "rm -r -f".toList ∨ p = "rm --recursive --force".toList)
    (hsplit : lowerL (trimSpace command.toList) = a ++ p ++ b)
    (hbound : (match a.getLast? with | some c => goWordChar c | none => false) = false) :
    (newExecTool wd restrict).guardCommand command cwd procCwd = blockedDangerous := by
  apply guardCommandL_of_denyHit
  apply List.any_eq_true.mpr
  refine ⟨rmDeny, List.mem_cons_self _ _, ?_⟩
  rw [hsplit, List.append_assoc]
  apply scanBoundary_append _ a false (p ++ b) hbound
  · rcases hp with hp | hp | hp <;> subst hp <;> simp
  · rcases hp with hp | hp | hp <;> subst hp <;> rfl

/-- Witness for the amended C3: `echo hi;rm -rf /tmp` (the `rm` occurrence
follows the non-word character `;`). -/
theorem rm_variants_blocked_at_boundary_witness :
    lowerL (trimSpace "echo hi;rm -rf /tmp".toList)
        = "echo hi;".toList ++ "rm -rf".toList ++ " /tmp".toList ∧
      (newExecTool "/ws" true).guardCommand "echo hi;rm -rf /tmp" "/ws" "/" = blockedDangerous := by
  refine ⟨by decide, ?_⟩
  exact rm_variants_blocked_at_boundary "/ws" true "echo hi;rm -rf /tmp" "/ws" "/"
    "echo hi;".toList " /tmp".toList "rm -rf".toList (Or.inl rfl) (by decide) (by decide)

/-! ## C4: traversal sequences, encoded variants and null bytes -/

/-- The traversal / encoding / null-byte sequences rejected by the
workspace-confinement stages. -/
def travSeqs : List (List Char) :=
  ["../".toList, "..\\".toList, "%2e%2e%2f".toList, "%2e%2e/".toList,
    "..%2f".toList, "%2e%2e%5c".toList, [Char.ofNat 0], "%00".toList]

/-- A guard verdict of allowed implies that, under workspace restriction,
all three string-scanning confinement checks came back clean. -/
theorem allowed_checks_false {t : ExecTool} {command cwd procCwd : List Char}
    (hres : t.restrictToWorkspace = true)
    (hallow : guardCommandL t command cwd procCwd = "") :
    travHit (trimSpace command) = false ∧ encHit (trimSpace command) = false ∧
      nulHit (trimSpace command) = false := by
  by_cases h1 : denyHit t (lowerL (trimSpace command)) = true
  · rw [guardCommandL_of_denyHit h1] at hallow
    exact absurd hallow (by decide)
  · by_cases h2 : allowMiss t (lowerL (trimSpace command)) = true
    · have hmsg : guardCommandL t command cwd procCwd = blockedAllowlist := by
        simp [guardCommandL, h1, h2]
      rw [hmsg] at hallow
      exact absurd hallow (by decide)
    · by_cases h3 : travHit (trimSpace command) = true
      · have hmsg : guardCommandL t command cwd procCwd = blockedTraversal := by
          simp [guardCommandL, h1, h2, hres, h3]
        rw [hmsg] at hallow
        exact absurd hallow (by decide)
      · by_cases h4 : encHit (trimSpace command) = true
        · have hmsg : guardCommandL t command cwd procCwd = blockedEncoded := by
            simp [guardCommandL, h1, h2, hres, h3, h4]
          rw [hmsg] at hallow
          exact absurd hallow (by decide)
        · by_cases h5 : nulHit (trimSpace command) = true
          · have hmsg : guardCommandL t command cwd procCwd = blockedNullByte := by
              simp [guardCommandL, h1, h2, hres, h3, h4, h5]
            rw [hmsg] at hallow
            exact absurd hallow (by decide)
          · exact ⟨by simpa using h3, by simpa using h4, by simpa using h5⟩

/-- C4.  Under workspace restriction, any command containing a literal
traversal sequence (`../`, `..\`), one of the four URL-percent-encoded
traversal variants, a raw null byte or its `%00` encoding — anywhere in its
text — is blocked by `guardCommand` (and hence, by C1, no process is
spawned). -/
theorem restrict_blocks_traversal_sequences (t : ExecTool) (command cwd procCwd : String)
    (hres : t.restrictToWorkspace = true) (pat : List Char) (hpat : pat ∈ travSeqs)
    (hocc : containsL command.toList pat = true) :
    t.guardCommand command cwd procCwd ≠ "" := by
  intro hallow
  obtain ⟨h3, h4, h5⟩ := allowed_checks_false hres hallow
  have hchars : ∀ c ∈ pat, uSpace c = false := by
    simp only [travSeqs, List.mem_cons, List.not_mem_nil, or_false] at hpat
    rcases hpat with h | h | h | h | h | h | h | h <;> subst h <;> decide
  have hcont : containsL (trimSpace command.toList) pat = true :=
    containsL_iff.mpr (infix_trimSpace_of_no_space hchars (containsL_iff.mp hocc))
  simp only [travSeqs, List.mem_cons, List.not_mem_nil, or_false] at hpat
  rcases hpat with h | h | h | h | h | h | h | h <;> subst h
  · simp only [travHit, hcont] at h3; simp at h3
  · simp only [travHit, hcont] at h3; simp at h3
  · simp only [encHit, hcont] at h4; simp at h4
  · simp only [encHit, hcont] at h4; simp at h4
  · simp only [encHit, hcont] at h4; simp at h4
  · simp only [encHit, hcont] at h4; simp at h4
  · simp only [nulHit, hcont] at h5; simp at h5
  · simp only [nulHit, hcont] at h5; simp at h5

/-- Witness for C4: `cat ../secret` under restriction. -/
theorem restrict_blocks_traversal_sequences_witness :
    "../".toList ∈ travSeqs ∧
      containsL "cat ../secret".toList "../".toList = true ∧
      (newExecTool "/ws" true).guardCommand "cat ../secret" "/ws" "/" ≠ "" := by
  refine ⟨by decide, by decide, ?_⟩
  exact restrict_blocks_traversal_sequences (newExecTool "/ws" true) "cat ../secret" "/ws" "/"
    rfl "../".toList (by decide) (by decide)

/-! ## C5: absolute-path tokens outside the workspace -/

/-- C5.  First part: when workspace restriction is on and the earlier stages
pass (no deny match, allow list satisfied, no literal/encoded traversal, no
null byte), a command one of whose extracted absolute-path tokens resolves —
via `filepath.Abs` and `filepath.Rel` against the resolved working
directory — to a relative path starting with a parent-directory segment is
blocked with the path-outside-working-dir message.  Second and third parts:
the spec's two concrete examples; the first is blocked (its `../` already
trips the literal-traversal stage), the second allowed. -/
theorem path_outside_working_dir_policy :
    (∀ (t : ExecTool) (command cwd procCwd : String),
      t.restrictToWorkspace = true →
      denyHit t (lowerL (trimSpace command.toList)) = false →
      allowMiss t (lowerL (trimSpace command.toList)) = false →
      travHit (trimSpace command.toList) = false →
      encHit (trimSpace command.toList) = false →
      nulHit (trimSpace command.toList) = false →
      outsideHit (trimSpace command.toList) cwd.toList procCwd.toList = true →
      t.guardCommand command cwd procCwd = blockedOutside) ∧
      (newExecTool "/home/user/project" true).guardCommand
        "cat /home/user/project/../../etc/passwd" "/home/user/project" "/" ≠ "" ∧
      (newExecTool "/home/user/project" true).guardCommand
        "cat /home/user/project/src/main.go" "/home/user/project" "/" = "" := by
  refine ⟨?_, by decide, by decide⟩
  intro t command cwd procCwd hres h1 h2 h3 h4 h5 h6
  simp only [ExecTool.guardCommand, guardCommandL]
  rw [h1, h2, hres, h3, h4, h5, h6]
  simp

/-- Witness for C5's conditional part: `cat /etc/passwd` from working
directory `/home/user/project` reaches the path stage and is blocked as
outside the working directory. -/
theorem path_outside_working_dir_policy_witness :
    outsideHit (trimSpace "cat /etc/passwd".toList) "/home/user/project".toList "/".toList
        = true ∧
      (newExecTool "/home/user/project" true).guardCommand "cat /etc/passwd"
        "/home/user/project" "/" = blockedOutside := by
  refine ⟨by decide, ?_⟩
  exact path_outside_working_dir_policy.1 (newExecTool "/home/user/project" true)
    "cat /etc/passwd" "/home/user/project" "/" rfl (by decide) (by decide) (by decide)
    (by decide) (by decide) (by decide)

/-! ## C6: allowlist semantics

The claim's second half (non-empty allow list, no match ⇒ allowlist block)
holds, but its first half overstates: with an empty allow list a deny-free
command is only guaranteed past the allowlist stage — `guardCommand` can
still block it in the workspace-confinement stages. -/

/-- Counterexample to C6 as stated: `ls ../docs` matches no deny pattern and
the default tool has an empty allow list, yet under workspace restriction
`guardCommand` does not return Allowed (it blocks the literal traversal). -/
theorem empty_allowlist_command_still_blocked :
    denyHit (newExecTool "/ws" true) (lowerL (trimSpace "ls ../docs".toList)) = false ∧
      (newExecTool "/ws" true).allowPatterns = [] ∧
      (newExecTool "/ws" true).guardCommand "ls ../docs" "/ws" "/" ≠ "" := by
  exact ⟨by decide, rfl, by decide⟩

/-- C6 (amended).  For a command matching no deny pattern: an empty allow
list imposes no allowlist restriction — the command is Allowed whenever
workspace confinement is off (and, in general, can only be stopped by the
confinement stages); a non-empty allow list with no matching pattern yields
the not-in-allowlist block even though no deny pattern matched. -/
theorem allowlist_stage_behaviour (t : ExecTool) (command cwd procCwd : String)
    (hdeny : denyHit t (lowerL (trimSpace command.toList)) = false) :
    (t.allowPatterns = [] → t.restrictToWorkspace = false →
        t.guardCommand command cwd procCwd = "") ∧
      (t.allowPatterns ≠ [] →
        t.allowPatterns.any (fun p => p (lowerL (trimSpace command.toList))) = false →
        t.guardCommand command cwd procCwd = blockedAllowlist) := by
  constructor
  · intro hempty hres
    have hmiss : allowMiss t (lowerL (trimSpace command.toList)) = false := by
      simp [allowMiss, hempty]
    simp only [ExecTool.guardCommand, guardCommandL]
    rw [hdeny, hmiss, hres]
    simp
  · intro hne hnomatch
    have hmiss : allowMiss t (lowerL (trimSpace command.toList)) = true := by
      cases hp : t.allowPatterns with
      | nil => exact absurd hp hne
      | cons q qs =>
        rw [hp] at hnomatch
        simp only [allowMiss]
        rw [hp, hnomatch]
        simp
    simp only [ExecTool.guardCommand, guardCommandL]
    rw [hdeny, hmiss]
    simp

/-- Witness for the amended C6: `ls` is allowed in deny-list-only mode, and
blocked by a configured allow list (a single substring rule for `git`) it
does not match. -/
theorem allowlist_stage_behaviour_witness :
    (newExecTool "/ws" false).guardCommand "ls" "/ws" "/" = "" ∧
      ({ newExecTool "/ws" false with
        allowPatterns := [fun l => containsL l "git".toList] } : ExecTool).guardCommand
        "ls" "/ws" "/" = blockedAllowlist := by
  constructor
  · exact (allowlist_stage_behaviour (newExecTool "/ws" false) "ls" "/ws" "/"
      (by decide)).1 rfl rfl
  · exact (allowlist_stage_behaviour _ "ls" "/ws" "/" (by decide)).2
      (by simp) (by decide)

/-! ## C7: `SetAllowPatterns` is not atomic on failure

The source replaces `t.allowPatterns` with a fresh empty slice before the
compilation loop and returns on the first bad pattern, so a failed call
leaves the compiled prefix, not the previous configuration.  The half of the
claim that survives: the call does return an error, and a malformed pattern
can only surface at configuration time. -/

/-- A stand-in for `regexp.Compile` at the concrete patterns the
counterexample uses: Go rejects `"("` (missing closing parenthesis) and
compiles the plain-literal patterns to substring matchers. -/
def compileEx : String → Option (List Char → Bool) :=
  fun p => if p = "(" then none else some (fun l => containsL l p.toList)

/-- Counterexample to C7 as stated: configuring `["("]` over a previously
configured one-pattern allow list returns an error but empties the allow
list instead of leaving it unchanged. -/
theorem setAllowPatterns_failure_clobbers_state :
    (({ newExecTool "/ws" false with
          allowPatterns := [fun l => containsL l "git".toList] } : ExecTool).setAllowPatterns
        compileEx ["("]).2 = true ∧
      (({ newExecTool "/ws" false with
          allowPatterns := [fun l => containsL l "git".toList] } : ExecTool).setAllowPatterns
        compileEx ["("]).1.allowPatterns = [] ∧
      ({ newExecTool "/ws" false with
          allowPatterns := [fun l => containsL l "git".toList] } : ExecTool).allowPatterns ≠ [] := by
  exact ⟨rfl, rfl, by simp⟩

/-- C7 (amended).  If some supplied pattern fails to compile,
`SetAllowPatterns` returns an error — so a malformed pattern surfaces at
configuration time, never at a later evaluation — but the call is not
atomic: the allow-pattern state afterwards is the successfully compiled
prefix of the new list (empty when the first pattern is bad), and the
previous configuration is discarded. -/
theorem setAllowPatterns_error_keeps_compiled_prefix (t : ExecTool)
    (compile : String → Option (List Char → Bool)) (patterns : List String)
    (hbad : ∃ p ∈ patterns, compile p = none) :
    (t.setAllowPatterns compile patterns).2 = true ∧
      (t.setAllowPatterns compile patterns).1.allowPatterns = compiledPfx compile patterns := by
  have hloop : ∀ (l : List String) (acc : List (List Char → Bool)),
      (∃ p ∈ l, compile p = none) →
      compileLoop compile acc l = (acc ++ compiledPfx compile l, true) := by
    intro l
    induction l with
    | nil => intro acc hex; simp at hex
    | cons p ps ih =>
      intro acc hex
      cases hc : compile p with
      | none =>
        simp [compileLoop, hc, compiledPfx]
      | some re =>
        have hex' : ∃ q ∈ ps, compile q = none := by
          rcases hex with ⟨q, hq, hqn⟩
          rcases List.mem_cons.mp hq with rfl | hq'
          · rw [hc] at hqn; exact absurd hqn (by simp)
          · exact ⟨q, hq', hqn⟩
        have := ih (acc ++ [re]) hex'
        simp [compileLoop, hc, this, compiledPfx, List.takeWhile_cons]

  have := hloop patterns [] hbad
  constructor
  · simp [ExecTool.setAllowPatterns, this]
  · simp [ExecTool.setAllowPatterns, this]

/-- Witness for the amended C7: configuring `["ls", "(", "git"]` fails and
leaves exactly the compiled matcher for `ls`. -/
theorem setAllowPatterns_error_keeps_compiled_prefix_witness :
    (∃ p ∈ ["ls", "(", "git"], compileEx p = none) ∧
      ((newExecTool "/ws" false).setAllowPatterns compileEx ["ls", "(", "git"]).2 = true ∧
      ((newExecTool "/ws" false).setAllowPatterns compileEx
          ["ls", "(", "git"]).1.allowPatterns.length = 1 := by
  have hbad : ∃ p ∈ ["ls", "(", "git"], compileEx p = none :=
    ⟨"(", by simp, rfl⟩
  have h := setAllowPatterns_error_keeps_compiled_prefix (newExecTool "/ws" false)
    compileEx ["ls", "(", "git"] hbad
  exact ⟨hbad, h.1, by rw [h.2]; rfl⟩

/-! ## C8: the timeout outcome -/

/-- C8.  When the spawned process ends in an error with the command
context's deadline exceeded, `Execute` returns the timeout outcome: an error
result whose text is exactly the fixed message naming the configured
duration.  The statement is quantified over both captured streams and the
run error, so no partial output (and no exit-code marker) ever reaches the
caller on this path — which is what distinguishes it from the non-timeout
failure outcome of C9. -/
theorem execute_timeout_outcome (t : ExecTool) (command : String)
    (wdArg osWd : Option String) (procCwd : String) (stdout stderr e : String)
    (hguard : t.guardCommand command (resolveCwd t wdArg osWd) procCwd = "") :
    t.execute (some command) wdArg osWd procCwd ⟨stdout, stderr, some e, true⟩
      = ({ forLLM := "Command timed out after " ++ fmtGoDuration t.timeoutSecs,
           forUser := "Command timed out after " ++ fmtGoDuration t.timeoutSecs,
           isError := true }, true) := by
  simp [ExecTool.execute, hguard]

/-- Witness for C8: `sleep 120` under a 1-second timeout, with partial
output in both buffers; the result is the fixed `1s` message, and differs
from the outcome the very same process data would produce on the
non-timeout failure path. -/
theorem execute_timeout_outcome_witness :
    ((newExecTool "/ws" false).setTimeout 1).guardCommand "sleep 120"
        (resolveCwd ((newExecTool "/ws" false).setTimeout 1) none none) "/" = "" ∧
      (((newExecTool "/ws" false).setTimeout 1).execute (some "sleep 120") none none "/"
          ⟨"partial out", "partial err", some "signal: killed", true⟩).1.forLLM
        = "Command timed out after 1s" ∧
      (((newExecTool "/ws" false).setTimeout 1).execute (some "sleep 120") none none "/"
          ⟨"partial out", "partial err", some "signal: killed", true⟩).1.forLLM
        ≠ (((newExecTool "/ws" false).setTimeout 1).execute (some "sleep 120") none none "/"
          ⟨"partial out", "partial err", some "signal: killed", false⟩).1.forLLM := by
  have hguard : ((newExecTool "/ws" false).setTimeout 1).guardCommand "sleep 120"
      (resolveCwd ((newExecTool "/ws" false).setTimeout 1) none none) "/" = "" := by decide
  have h := execute_timeout_outcome ((newExecTool "/ws" false).setTimeout 1) "sleep 120"
    none none "/" "partial out" "partial err" "signal: killed" hguard
  refine ⟨hguard, by rw [h]; decide, ?_⟩
  rw [h]
  decide

/-! ## C9: the non-zero-exit outcome -/

/-- Appending the exit-code marker never yields the empty string (so the
`(no output)` substitution cannot fire on the failure path). -/
theorem append_exit_ne_empty (s e : String) : s ++ "\nExit code: " ++ e ≠ "" := by
  intro h
  have := congrArg String.length h
  simp only [String.length_append] at this
  have hmarker : "\nExit code: ".length = 12 := rfl
  have hempty : "".length = 0 := rfl
  rw [hmarker, hempty] at this
  omega

/-- C9.  A process that ends in an error without the deadline exceeded (a
non-zero exit) produces an error result that still carries the captured
output: stdout, a delimited `STDERR:` section whenever stderr is non-empty,
and the appended exit-code marker, the whole subject to the 10000-character
truncation budget. -/
theorem execute_nonzero_exit_outcome (t : ExecTool) (command : String)
    (wdArg osWd : Option String) (procCwd : String) (stdout stderr e : String)
    (hguard : t.guardCommand command (resolveCwd t wdArg osWd) procCwd = "") :
    t.execute (some command) wdArg osWd procCwd ⟨stdout, stderr, some e, false⟩
        = ({ forLLM := truncateOutput (combinedOutput stdout stderr ++ "\nExit code: " ++ e),
             forUser := truncateOutput (combinedOutput stdout stderr ++ "\nExit code: " ++ e),
             isError := true }, true) ∧
      (stderr ≠ "" →
        combinedOutput stdout stderr = stdout ++ "\nSTDERR:\n" ++ stderr) := by
  constructor
  · simp [ExecTool.execute, hguard, append_exit_ne_empty]
  · intro hse
    have : stderr.length > 0 := by
      cases hz : stderr.length with
      | zero => exact absurd (String.ext (List.length_eq_zero.mp hz)) hse
      | succ n => omega
    simp [combinedOutput, this]

/-- Witness for C9: exit status 1 with `boom` on stderr — the result text
contains the `STDERR:` section and the exit-code marker. -/
theorem execute_nonzero_exit_outcome_witness :
    (newExecTool "/ws" false).guardCommand "false"
        (resolveCwd (newExecTool "/ws" false) none none) "/" = "" ∧
      ((newExecTool "/ws" false).execute (some "false") none none "/"
          ⟨"", "boom", some "exit status 1", false⟩).1.forLLM
        = "\nSTDERR:\nboom\nExit code: exit status 1" ∧
      ((newExecTool "/ws" false).execute (some "false") none none "/"
          ⟨"", "boom", some "exit status 1", false⟩).1.isError = true ∧
      containsL ((newExecTool "/ws" false).execute (some "false") none none "/"
          ⟨"", "boom", some "exit status 1", false⟩).1.forLLM.toList "STDERR:\nboom".toList
        = true := by
  have hguard : (newExecTool "/ws" false).guardCommand "false"
      (resolveCwd (newExecTool "/ws" false) none none) "/" = "" := by decide
  have h := execute_nonzero_exit_outcome (newExecTool "/ws" false) "false"
    none none "/" "" "boom" "exit status 1" hguard
  refine ⟨hguard, by rw [h.1]; decide, by rw [h.1], by rw [h.1]; decide⟩

/-! ## C10: the confinement string checks are case-sensitive -/

/-- C10.  Deny patterns are matched against the lowercased command while the
URL-encoded-traversal and null-byte checks compare the original-cased
(trimmed) text, so a command whose only traversal indicator is an upper- or
mixed-case percent-encoded sequence such as `%2E%2E%2F` — with no deny
match, no allow list, none of the lowercase encoded variants, no literal
traversal, no null byte and no out-of-workspace path token — is Allowed even
under workspace restriction. -/
theorem uppercase_encoded_traversal_allowed (t : ExecTool) (command cwd procCwd : String)
    (hres : t.restrictToWorkspace = true)
    (_hupper : containsL (trimSpace command.toList) "%2E%2E%2F".toList = true)
    (hdeny : denyHit t (lowerL (trimSpace command.toList)) = false)
    (hallow : t.allowPatterns = [])
    (htrav : travHit (trimSpace command.toList) = false)
    (henc : encHit (trimSpace command.toList) = false)
    (hnul : nulHit (trimSpace command.toList) = false)
    (hout : outsideHit (trimSpace command.toList) cwd.toList procCwd.toList = false) :
    t.guardCommand command cwd procCwd = "" := by
  have hmiss : allowMiss t (lowerL (trimSpace command.toList)) = false := by
    simp [allowMiss, hallow]
  simp only [ExecTool.guardCommand, guardCommandL]
  rw [hdeny, hmiss, hres, htrav, henc, hnul, hout]
  simp

/-- Witness for C10: `cat %2E%2E%2F` is allowed under restriction, while its
lowercase twin is blocked by the URL-encoded-traversal stage. -/
theorem uppercase_encoded_traversal_allowed_witness :
    containsL (trimSpace "cat %2E%2E%2F".toList) "%2E%2E%2F".toList = true ∧
      (newExecTool "/ws" true).guardCommand "cat %2E%2E%2F" "/ws" "/" = "" ∧
      (newExecTool "/ws" true).guardCommand "cat %2e%2e%2f" "/ws" "/" = blockedEncoded := by
  refine ⟨by decide, ?_, by decide⟩
  exact uppercase_encoded_traversal_allowed (newExecTool "/ws" true) "cat %2E%2E%2F" "/ws" "/"
    rfl (by decide) (by decide) rfl (by decide) (by decide) (by decide) (by decide)

end Picoclaw
